import Mathlib

/-!
Verification of the query-telemetry subsystem (`src/mongo/db/query/telemetry.cpp`).

The development shallowly embeds the telemetry subsystem: the BSON value
model, the FLE-payload detection used during redaction, the sampling gate,
the telemetry-key builders (`shouldCollectTelemetry` overloads), the
bounded partitioned store with its metrics aggregation (`collectTelemetry`),
and the store manager (`resetTelemetryStore`, `updateCacheSize`).

BSON documents are modelled as a first-order telescope: an object is a
chain of `objCons name value rest` cells ending in `objNil`, mirroring the
byte-sequence-of-elements layout of real BSON (arrays likewise, with their
explicit element names, as in the wire format).  All functions are plain
structural recursions, so every definition evaluates by kernel reduction.
-/

/-- BSON values.  Objects and arrays are telescopes of named elements,
matching BSON's flat sequence-of-elements encoding; `binData` carries the
subtype byte and payload bytes. -/
inductive BSON where
  | int (n : Int)
  | bool (b : Bool)
  | null
  | str (s : String)
  | binData (subtype : Nat) (bytes : List Nat)
  | objNil
  | objCons (name : String) (value : BSON) (rest : BSON)
  | arrNil
  | arrCons (name : String) (value : BSON) (rest : BSON)
deriving DecidableEq, Repr

/-- The sentinel field label checked by `throwIfEncounteringFLEPayload`
(`constexpr auto safeContentLabel = "__safeContent__"_sd`). -/
def safeContentLabel : String := "__safeContent__"

/-- The sentinel field path checked by `throwIfEncounteringFLEPayload`
(`constexpr auto fieldpath = "$__safeContent__"_sd`). -/
def safeContentFieldpath : String := "$__safeContent__"

/-- Modelled from the spec: `BinDataType::Encrypt`, the BSON binary subtype
tagging encrypted payloads (`bindata_stream_builder` constants are not among
the provided sources; the concrete numeral only needs to be a fixed tag). -/
def binDataTypeEncrypt : Nat := 6

/-- Modelled from the spec: `EncryptedBinDataType::kDeterministic`, the
sub-type byte for deterministically encrypted payloads (the enum is not
among the provided sources; the concrete numeral only needs to be fixed). -/
def kDeterministic : Nat := 1

/-- Prefix test on strings, standing in for `StringData::startsWith`. -/
def strStartsWith (s pre : String) : Bool :=
  pre.toList.isPrefixOf s.toList

/-- Is this value of BSON type Object (`BSONType::Object`)? -/
def BSON.isObjType : BSON → Bool
  | .objNil => true
  | .objCons _ _ _ => true
  | _ => false

/-- Is this value of a container type (Object or Array), i.e. does
`BSONElement::isABSONObj()` hold and `BSONElement::Obj()` succeed? -/
def BSON.isContainer : BSON → Bool
  | .objNil => true
  | .objCons _ _ _ => true
  | .arrNil => true
  | .arrCons _ _ _ => true
  | _ => false

/-- Reinterpret an array telescope as an object telescope, as
`BSONElement::Obj()` does on an array element (BSON arrays are objects
with their stored element names). -/
def BSON.toObjTele : BSON → BSON
  | .arrNil => .objNil
  | .arrCons n v r => .objCons n v r.toObjTele
  | v => v

/-- Errors that can escape key construction: `fle` models the
`EncounteredFLEPayloadWhileRedacting` exception (caught by the key
builders), `badStage` models any other exception out of
`BSONElement::Obj()` on a malformed pipeline stage (not caught). -/
inductive KeyError where
  | fle
  | badStage
deriving DecidableEq, Repr

/-- Translation of `throwIfEncounteringFLEPayload` (telemetry.cpp lines
197-218).  `uassert(code, msg, cond)` throws exactly when `cond` is false,
so each branch returns `ok` precisely on the source's assertion condition:
an Object-typed element passes only when its field name is
`__safeContent__` or starts with `$_internalFle`; a String element passes
only when its value is `$__safeContent__`; an Encrypt-tagged BinData
element passes only when it has more than one byte and its second byte is
not `kDeterministic`. -/
def throwIfEncounteringFLEPayload (fieldname : String) (v : BSON) : Except KeyError Unit :=
  if v.isObjType then
    if fieldname = safeContentLabel ∨ strStartsWith fieldname "$_internalFle"
    then .ok () else .error .fle
  else
    match v with
    | .str val => if val = safeContentFieldpath then .ok () else .error .fle
    | .binData st bytes =>
        if st = binDataTypeEncrypt then
          if bytes.length > 1 ∧ bytes.getD 1 0 ≠ kDeterministic
          then .ok () else .error .fle
        else .ok ()
    | _ => .ok ()

/-- Chooses between the recursive redaction of a container value and the
literal placeholder `"###"` for a non-container value. -/
def redactValueWith (v : BSON) (recursed : Except KeyError BSON) : Except KeyError BSON :=
  if v.isContainer then recursed else pure (.str "###")

/-- Modelled from the spec: `BSONObj::redact(false)` is not among the
provided sources.  Per the spec the redaction pass visits every field
value of every argument, replaces literal values with the placeholder
`"###"` while preserving structural shape, and runs the FLE-payload
detection on every element (the source instructs: "Call this function from
inside the redact() function on every BSONElement in the BSONObj").  A
detection aborts the whole traversal with `KeyError.fle`. -/
def redactBody : BSON → Except KeyError BSON
  | .objCons n v rest => do
      throwIfEncounteringFLEPayload n v
      let v' ← redactValueWith v (redactBody v)
      let rest' ← redactBody rest
      pure (.objCons n v' rest')
  | .arrCons n v rest => do
      throwIfEncounteringFLEPayload n v
      let v' ← redactValueWith v (redactBody v)
      let rest' ← redactBody rest
      pure (.arrCons n v' rest')
  | .objNil => pure .objNil
  | .arrNil => pure .arrNil
  | v => pure v

/-- Appends `name : value` when the optional value is present, else nothing
(the `if (request.getReadConcern()) ... append` pattern). -/
def optField (name : String) (v : Option BSON) (rest : BSON) : BSON :=
  match v with
  | some x => .objCons name x rest
  | none => rest

/-- Modelled from the spec: the rate limiter (`rate_limiting.h` is not
among the provided sources).  A fixed wall-clock window of
`windowLenMicros` holds at most `samplingRate` grants; `windowStart` and
`countInWindow` are the window bookkeeping. -/
structure RateLimiting where
  samplingRate : Nat
  windowLenMicros : Nat
  windowStart : Nat
  countInWindow : Nat
deriving DecidableEq, Repr

/-- Modelled from the spec: `RateLimiting::handleRequestSlidingWindow`.
If the current window has expired, a new window starts at `now` with a
zero count; the request is granted (and counted) iff the window's count
has not yet reached the sampling rate. -/
def RateLimiting.handleRequestSlidingWindow (now : Nat) (rl : RateLimiting) :
    Bool × RateLimiting :=
  let rl := if rl.windowStart + rl.windowLenMicros ≤ now
            then { rl with windowStart := now, countInWindow := 0 }
            else rl
  if rl.countInWindow < rl.samplingRate
  then (true, { rl with countInWindow := rl.countInWindow + 1 })
  else (false, rl)

/-- The service-wide mutable state the telemetry functions read and write:
the rate limiter decoration and the current wall-clock time. -/
structure ServiceState where
  rateLimiter : RateLimiting
  now : Nat
deriving DecidableEq, Repr

/-- The slice of the operation context the key builders read: the client
metadata application name (`ClientMetadata::get(opCtx->getClient())`). -/
structure OpCtx where
  appName : Option String
deriving DecidableEq, Repr

/-- Translation of `isTelemetryEnabled` (telemetry.cpp lines 168-170):
the configured sampling rate is above zero. -/
def isTelemetryEnabled (svc : ServiceState) : Bool :=
  svc.rateLimiter.samplingRate > 0

/-- Translation of `shouldCollect` (telemetry.cpp lines 176-187): quick
escape when telemetry is off, otherwise delegate to the rate limiter's
sliding-window admission (which mutates the limiter state). -/
def shouldCollect (svc : ServiceState) : Bool × ServiceState :=
  if ¬ isTelemetryEnabled svc then (false, svc)
  else
    let (granted, rl) := svc.rateLimiter.handleRequestSlidingWindow svc.now
    if ¬ granted then (false, { svc with rateLimiter := rl })
    else (true, { svc with rateLimiter := rl })

/-- Modelled from the spec: `NamespaceString::isFLE2StateCollection` is not
among the provided sources; per the spec it recognizes the internal
encryption state collections, here by their reserved name prefix. -/
def isFLE2StateCollection (nss : String) : Bool :=
  strStartsWith nss "enxcol_."

/-- The slice of `AggregateCommandRequest` the telemetry key builder
reads: the pipeline (a list of stage documents), the namespace, the
presence of client-side FLE metadata, and the read concern. -/
structure AggregateCommandRequest where
  pipeline : List BSON
  nss : String
  encryptionInformation : Bool
  readConcern : Option BSON
deriving DecidableEq, Repr

/-- One pipeline stage of the aggregate key: `stage.firstElement()` is
taken, its value is viewed as an object (`el.Obj()`, failing on
non-containers), redacted, and wrapped as `{ <stageName> : <redacted> }`
(the `stageBuilder.append(el.fieldNameStringData(), el.Obj().redact(false))`
of telemetry.cpp lines 240-244). -/
def buildAggStage (stage : BSON) : Except KeyError BSON :=
  match stage with
  | .objCons n v _ =>
      if v.isContainer then do
        let r ← redactBody v.toObjTele
        pure (.objCons n r .objNil)
      else .error .badStage
  | _ => .error .badStage

/-- The `pipeline` subarray of the aggregate key: one element per stage,
each stored under the constant element name `"stage"` (the
`pipelineBuilder.subobjStart("stage"_sd)` inside the subarray). -/
def buildAggPipeline : List BSON → Except KeyError BSON
  | [] => pure .arrNil
  | s :: rest => do
      let s' ← buildAggStage s
      let rest' ← buildAggPipeline rest
      pure (.arrCons "stage" s' rest')

/-- Translation of the `AggregateCommandRequest` overload of
`shouldCollectTelemetry` (telemetry.cpp lines 222-258): no key when the
request carries encryption information, when the namespace is an FLE2
state collection, or when `shouldCollect` denies; otherwise the key is
built (pipeline stages redacted, then namespace, optional read concern
verbatim, optional application name), with the
`EncounteredFLEPayloadWhileRedacting` exception caught and turned into
"no key" while any other exception propagates. -/
def shouldCollectTelemetryAgg (request : AggregateCommandRequest) (opCtx : OpCtx)
    (svc : ServiceState) : Except KeyError (Option BSON) × ServiceState :=
  if request.encryptionInformation then (.ok none, svc)
  else if isFLE2StateCollection request.nss then (.ok none, svc)
  else
    let res := shouldCollect svc
    if ¬ res.1 then (.ok none, res.2)
    else
      match buildAggPipeline request.pipeline with
      | .error .fle => (.ok none, res.2)
      | .error e => (.error e, res.2)
      | .ok stages =>
          (.ok (some (.objCons "pipeline" (stages)
            (.objCons "namespace" (.str request.nss)
              (optField "readConcern" request.readConcern
                (optField "applicationName" (opCtx.appName.map .str) .objNil))))), res.2)

/-- The slice of `FindCommandRequest` the telemetry key builder reads:
its BSON serialization (`request.toBSON({})`), the presence of
client-side FLE metadata, and the read concern. -/
structure FindCommandRequest where
  body : BSON
  encryptionInformation : Bool
  readConcern : Option BSON
deriving DecidableEq, Repr

/-- The per-entry loop of the find overload (telemetry.cpp lines 280-286):
object-valued entries are redacted, all other entries are replaced by the
placeholder string `"###"`. -/
def buildFindEntries : BSON → Except KeyError BSON
  | .objCons n v rest =>
      if v.isContainer then do
        let r ← redactBody v.toObjTele
        let rest' ← buildFindEntries rest
        pure (.objCons n r rest')
      else do
        let rest' ← buildFindEntries rest
        pure (.objCons n (.str "###") rest')
  | _ => pure .objNil

/-- Translation of the `FindCommandRequest` overload of
`shouldCollectTelemetry` (telemetry.cpp lines 260-299).  The redacted
entries land inside the `find` subdocument (the entries are appended to
the shared buffer between `subobjStart("find")` and `findBuilder.done()`),
followed by namespace, optional read concern verbatim and optional
application name. -/
def shouldCollectTelemetryFind (request : FindCommandRequest) (collection : String)
    (opCtx : OpCtx) (svc : ServiceState) : Except KeyError (Option BSON) × ServiceState :=
  if request.encryptionInformation then (.ok none, svc)
  else if isFLE2StateCollection collection then (.ok none, svc)
  else
    let res := shouldCollect svc
    if ¬ res.1 then (.ok none, res.2)
    else
      match buildFindEntries request.body with
      | .error .fle => (.ok none, res.2)
      | .error e => (.error e, res.2)
      | .ok entries =>
          (.ok (some (.objCons "find" entries
            (.objCons "namespace" (.str collection)
              (optField "readConcern" request.readConcern
                (optField "applicationName" (opCtx.appName.map .str) .objNil))))), res.2)

/-- Is this BSON object empty (`BSONObj::isEmpty`)? -/
def BSON.isEmptyObj : BSON → Bool
  | .objNil => true
  | _ => false

/-- Translation of the prebuilt-key overload of `shouldCollectTelemetry`
(telemetry.cpp lines 301-307): nothing when the key is empty (the
short-circuiting `||` skips `shouldCollect` in that case) or when
`shouldCollect` denies, otherwise the key unchanged. -/
def shouldCollectTelemetryPrebuilt (key : BSON) (svc : ServiceState) :
    Option BSON × ServiceState :=
  if key.isEmptyObj then (none, svc)
  else
    let res := shouldCollect svc
    if ¬ res.1 then (none, res.2)
    else (some key, res.2)

/-- Modelled from the spec: the per-metric running aggregate
(`AggregatedMetric` of telemetry.h is not among the provided sources; the
spec prescribes "count/min/max/sum, or equivalent" updated by each
`aggregate` call).  `min`/`max` are `none` until the first sample. -/
structure AggregatedMetric where
  sum : Nat
  count : Nat
  min : Option Nat
  max : Option Nat
deriving DecidableEq, Repr

/-- Modelled from the spec: `AggregatedMetric::aggregate(val)` folds one
sample into the running sum, count, minimum and maximum. -/
def AggregatedMetric.aggregate (m : AggregatedMetric) (val : Nat) : AggregatedMetric :=
  { sum := m.sum + val
    count := m.count + 1
    min := some (Nat.min (m.min.getD val) val)
    max := some (Nat.max (m.max.getD val) val) }

/-- A zero-valued aggregate, as default construction produces. -/
def AggregatedMetric.empty : AggregatedMetric :=
  { sum := 0, count := 0, min := none, max := none }

/-- The per-key running statistics (`TelemetryMetrics` of telemetry.h,
whose fields are the ones `collectTelemetry` mutates): execution count,
the latest execution latency stored verbatim, and aggregates for planning
latency, execution latency, documents returned, documents scanned and
index keys scanned. -/
structure TelemetryMetrics where
  execCount : Nat
  lastExecutionMicros : Nat
  queryOptMicros : AggregatedMetric
  queryExecMicros : AggregatedMetric
  docsReturned : AggregatedMetric
  docsScanned : AggregatedMetric
  keysScanned : AggregatedMetric
deriving DecidableEq, Repr

/-- A freshly default-constructed `TelemetryMetrics` (the
`TelemetryMetrics metrics;` of telemetry.cpp line 331). -/
def TelemetryMetrics.empty : TelemetryMetrics :=
  { execCount := 0
    lastExecutionMicros := 0
    queryOptMicros := .empty
    queryExecMicros := .empty
    docsReturned := .empty
    docsScanned := .empty
    keysScanned := .empty }

/-- The slice of `OpDebug` that `collectTelemetry` reads: planning time,
execution time, documents returned, and the optional scanned counters of
`additiveMetrics` (read with `value_or(0)`). -/
structure OpDebug where
  planningTimeMicros : Nat
  executionTimeMicros : Nat
  nreturned : Nat
  docsExamined : Option Nat
  keysExamined : Option Nat
deriving DecidableEq, Repr

/-- The mutation `collectTelemetry` performs on an entry's metrics
(telemetry.cpp lines 341-349): under `isExec` the execution count is
incremented and the planning latency aggregated; unconditionally the
document/key counters and the execution latency are aggregated and the
latest execution latency is stored verbatim. -/
def updateMetrics (m : TelemetryMetrics) (d : OpDebug) (isExec : Bool) : TelemetryMetrics :=
  let m :=
    if isExec then
      { m with execCount := m.execCount + 1
               queryOptMicros := m.queryOptMicros.aggregate d.planningTimeMicros }
    else m
  { m with docsReturned := m.docsReturned.aggregate d.nreturned
           docsScanned := m.docsScanned.aggregate (d.docsExamined.getD 0)
           keysScanned := m.keysScanned.aggregate (d.keysExamined.getD 0)
           lastExecutionMicros := d.executionTimeMicros
           queryExecMicros := m.queryExecMicros.aggregate d.executionTimeMicros }

/-- One store entry: a telemetry key and its running metrics. -/
abbrev Entry := BSON × TelemetryMetrics

/-- Modelled from the spec: an approximate byte-size for a stored key,
used for the store's memory accounting (the partitioned cache's size
accounting is not among the provided sources). -/
def bsonKeySize : BSON → Nat
  | .int _ => 9
  | .bool _ => 2
  | .null => 1
  | .str s => s.length + 5
  | .binData _ bytes => bytes.length + 6
  | .objNil => 5
  | .objCons n v r => n.length + 2 + bsonKeySize v + bsonKeySize r
  | .arrNil => 5
  | .arrCons n v r => n.length + 2 + bsonKeySize v + bsonKeySize r

/-- Modelled from the spec: the fixed byte cost of one metrics record. -/
def kMetricsSize : Nat := 96

/-- Modelled from the spec: the memory charged for one store entry. -/
def entrySize (key : BSON) : Nat := bsonKeySize key + kMetricsSize

/-- Total memory charged to a partition's entries. -/
def partitionSize (p : List Entry) : Nat :=
  (p.map fun e => entrySize e.1).sum

/-- A structural hash distributing keys over partitions (stands in for the
hash the partitioned cache applies to keys). -/
def bsonHash : BSON → Nat
  | .int n => 3 + n.natAbs
  | .bool b => 5 + cond b 1 0
  | .null => 7
  | .str s => 11 + s.toList.foldl (fun a c => a * 31 + c.toNat) 7
  | .binData st bytes => 13 + st + bytes.sum
  | .objNil => 17
  | .objCons n v r =>
      19 + n.toList.foldl (fun a c => a * 31 + c.toNat) 7 + 31 * bsonHash v + 7 * bsonHash r
  | .arrNil => 23
  | .arrCons n v r =>
      29 + n.toList.foldl (fun a c => a * 31 + c.toNat) 7 + 31 * bsonHash v + 7 * bsonHash r

/-- Modelled from the spec: the bounded partitioned store
(`TelemetryStore`, a partitioned cache, is not among the provided
sources).  Entries hash to one of `numPartitions` partitions, each a
most-recent-first list bounded by its share of the byte budget. -/
structure TelemetryStore where
  size : Nat
  numPartitions : Nat
  partitions : List (List Entry)
deriving DecidableEq, Repr

/-- A freshly constructed store: all partitions empty
(`std::make_unique<TelemetryStore>(size, numPartitions)`). -/
def emptyTelemetryStore (size numPartitions : Nat) : TelemetryStore :=
  ⟨size, numPartitions, List.replicate numPartitions []⟩

/-- Modelled from the spec: each partition owns an equal share of the
store's byte budget. -/
def TelemetryStore.partitionBudget (s : TelemetryStore) : Nat :=
  s.size / s.numPartitions

/-- The partition index a key hashes to. -/
def TelemetryStore.partitionOf (s : TelemetryStore) (key : BSON) : Nat :=
  bsonHash key % s.numPartitions

/-- Structural well-formedness of a store: a positive partition count and
one partition list per partition (true of every constructed store). -/
def TelemetryStore.wf (s : TelemetryStore) : Prop :=
  0 < s.numPartitions ∧ s.partitions.length = s.numPartitions

/-- Lookup of a key's metrics within one partition. -/
def pLookup (p : List Entry) (key : BSON) : Option TelemetryMetrics :=
  (p.find? fun e => e.1 = key).map (·.2)

/-- Modelled from the spec: the partition eviction loop — drop
least-recently-used entries (the back of the list) until the partition
fits its budget or is empty.  The fuel argument (instantiated with the
list length) makes the recursion structural. -/
def evictLoop (budget : Nat) : Nat → List Entry → List Entry
  | 0, p => p
  | fuel + 1, p =>
      if partitionSize p ≤ budget then p
      else evictLoop budget fuel p.dropLast

/-- Modelled from the spec: inserting an entry at the most-recent end of
its partition, then evicting from the least-recent end until the
partition fits its budget (possibly evicting the fresh entry itself when
even alone it exceeds the budget). -/
def pInsert (budget : Nat) (p : List Entry) (key : BSON) (m : TelemetryMetrics) :
    List Entry :=
  let p' := (key, m) :: p.filter fun e => ¬ e.1 = key
  evictLoop budget p'.length p'

/-- The partition list a key's partition currently holds. -/
def TelemetryStore.partitionFor (s : TelemetryStore) (key : BSON) : List Entry :=
  s.partitions.getD (s.partitionOf key) []

/-- Replace a key's partition with a new list. -/
def TelemetryStore.setPartition (s : TelemetryStore) (key : BSON) (p : List Entry) :
    TelemetryStore :=
  { s with partitions := s.partitions.set (s.partitionOf key) p }

/-- Lookup across the store (`partitionLock->get(key)` after hashing). -/
def TelemetryStore.lookup (s : TelemetryStore) (key : BSON) : Option TelemetryMetrics :=
  pLookup (s.partitionFor key) key

/-- The outcome of `collectTelemetry`: an updated store, or the process
abort of the failed `tassert(7064700, ...)` invariant. -/
inductive CollectResult where
  | ok (store : TelemetryStore)
  | fatalInvariant (id : Nat)
deriving DecidableEq, Repr

/-- Translation of `collectTelemetry` (telemetry.cpp lines 318-350): the
key's partition is locked and searched; on a miss a default-constructed
metrics record is `put` (with eviction) and looked up again, and if the
fresh entry cannot be found the process aborts via
`tassert(7064700, "Should find telemetry store entry", ...)`; the found
record is then mutated per `updateMetrics` (and promoted to most
recent). -/
def collectTelemetry (store : TelemetryStore) (key : BSON) (d : OpDebug)
    (isExec : Bool) : CollectResult :=
  let p := store.partitionFor key
  match pLookup p key with
  | some m =>
      let p' := (key, updateMetrics m d isExec) :: p.filter fun e => ¬ e.1 = key
      .ok (store.setPartition key p')
  | none =>
      let p1 := pInsert store.partitionBudget p key .empty
      match pLookup p1 key with
      | none => .fatalInvariant 7064700
      | some m0 =>
          let p' := (key, updateMetrics m0 d isExec) :: p1.filter fun e => ¬ e.1 = key
          .ok (store.setPartition key p')

/-- `collectTelemetry` iterated: the same key and the same execution
statistics recorded `n` times in sequence (aborting if any step hits the
fatal invariant). -/
def collectN (key : BSON) (d : OpDebug) (isExec : Bool) :
    Nat → TelemetryStore → CollectResult
  | 0, s => .ok s
  | n + 1, s =>
      match collectTelemetry s key d isExec with
      | .ok s' => collectN key d isExec n s'
      | r => r

/-- One operation's telemetry life cycle: ask `shouldCollectTelemetry`
(aggregate overload) for a key at the start and, only if a key was
produced, record into the store at the end. -/
def runAggOperation (request : AggregateCommandRequest) (opCtx : OpCtx)
    (svc : ServiceState) (store : TelemetryStore) (d : OpDebug) (isExec : Bool) :
    ServiceState × CollectResult :=
  match shouldCollectTelemetryAgg request opCtx svc with
  | (.ok (some key), svc') => (svc', collectTelemetry store key d isExec)
  | (_, svc') => (svc', .ok store)

/-- The manager owning the live store behind the shared/exclusive
instance lock (`TelemetryStoreManager`, telemetry.cpp lines 68-108).  The
`readers` list models the outstanding shared holds, each recording the
store instance it observed at acquisition
(`getTelemetryStore()` returns the pointer together with a
`Lock::SharedLock` guard). -/
structure TelemetryStoreManager where
  telemetryStore : TelemetryStore
  readers : List TelemetryStore
deriving DecidableEq, Repr

/-- Translation of `TelemetryStoreManager::resetTelemetryStore`
(telemetry.cpp lines 91-97): the exclusive lock waits until every shared
hold is released (modelled as the operation being enabled only when
`readers` is empty), then a fresh store with the old store's `size()` and
`numPartitions()` is swapped in and the old instance returned. -/
def TelemetryStoreManager.resetTelemetryStore (mgr : TelemetryStoreManager) :
    Option (TelemetryStore × TelemetryStoreManager) :=
  if mgr.readers.isEmpty then
    some (mgr.telemetryStore,
      { mgr with telemetryStore :=
          emptyTelemetryStore mgr.telemetryStore.size mgr.telemetryStore.numPartitions })
  else none

/-- The atomic steps of the manager's reader/writer protocol: acquiring a
shared hold (recording the observed instance), releasing one, and the
exclusive reset (enabled only with no outstanding shared holds). -/
inductive ManagerStep : TelemetryStoreManager → TelemetryStoreManager → Prop where
  | acquireRead (m : TelemetryStoreManager) :
      ManagerStep m ⟨m.telemetryStore, m.telemetryStore :: m.readers⟩
  | releaseRead (m : TelemetryStoreManager) (r : TelemetryStore)
      (pre post : List TelemetryStore) :
      m.readers = pre ++ r :: post → ManagerStep m ⟨m.telemetryStore, pre ++ post⟩
  | reset (m m' : TelemetryStoreManager) (old : TelemetryStore) :
      m.resetTelemetryStore = some (old, m') → ManagerStep m m'

/-- Modelled from the spec: `memory_util::capMemorySize` (not among the
provided sources) caps a requested size at the lesser of a hard ceiling
and a fraction of system memory, here abstracted as two fixed byte
bounds. -/
def capMemorySize (requested maximumBytes percentCapBytes : Nat) : Nat :=
  Nat.min requested (Nat.min maximumBytes percentCapBytes)

/-- The fixed upper bound (1 GiB) passed by `updateCacheSize`. -/
def kMaxSizeBytes : Nat := 1073741824

/-- Modelled from the spec: the 25-percent-of-system-memory bound passed
by `updateCacheSize`, abstracted as a fixed byte count. -/
def kPercentCapBytes : Nat := 4294967296

/-- Modelled from the spec: `TelemetryStore::reset(size)` of the
partitioned cache (not among the provided sources) — an in-place
mutation of the live store installing the new byte budget and clearing
the partitions, leaving the partition count unchanged. -/
def TelemetryStore.reset (s : TelemetryStore) (newSize : Nat) : TelemetryStore :=
  { s with size := newSize, partitions := List.replicate s.numPartitions [] }

/-- Translation of `TelemetryOnParamChangeUpdaterImpl::updateCacheSize`
(telemetry.cpp lines 115-131): the requested size is capped, the live
store is obtained through `getTelemetryStore()` — a shared read hold,
which neither waits for nor excludes other shared holders — and
`telemetryStore->reset(cappedSize)` mutates that instance in place.  No
new store is constructed and the manager's pointer is not swapped, so the
`readers` list is unchanged. -/
def updateCacheSize (mgr : TelemetryStoreManager) (requestedSize : Nat) :
    TelemetryStoreManager :=
  let cappedSize := capMemorySize requestedSize kMaxSizeBytes kPercentCapBytes
  { mgr with telemetryStore := mgr.telemetryStore.reset cappedSize }

deriving instance DecidableEq for Except

/-- A service state whose rate limiter grants the next admission: rate 1,
an open window, no grants consumed yet. -/
def svcGrant : ServiceState :=
  { rateLimiter := ⟨1, 1000000, 0, 0⟩, now := 5 }

/-- An aggregate request whose single stage contains exactly the FLE2
sentinel marker: `[ \x7b $match : \x7b __safeContent__ : \x7b\x7d \x7d \x7d ]`. -/
def fleMarkerRequest : AggregateCommandRequest :=
  { pipeline := [.objCons "$match" (.objCons "__safeContent__" .objNil .objNil) .objNil]
    nss := "test.coll", encryptionInformation := false, readConcern := none }

/-- The telemetry key the code builds for `fleMarkerRequest`: the sentinel
marker survives, redacted-in-name-only, inside the key. -/
def fleMarkerKey : BSON :=
  .objCons "pipeline"
    (.arrCons "stage"
      (.objCons "$match" (.objCons "__safeContent__" .objNil .objNil) .objNil) .arrNil)
    (.objCons "namespace" (.str "test.coll") .objNil)

/-- An aggregate request containing no encryption marker at all:
`[ \x7b $match : \x7b a : \x7b b : 1 \x7d \x7d \x7d ]`. -/
def benignNestedRequest : AggregateCommandRequest :=
  { pipeline := [.objCons "$match" (.objCons "a" (.objCons "b" (.int 1) .objNil) .objNil) .objNil]
    nss := "test.coll", encryptionInformation := false, readConcern := none }

/-- C1: the claim states that `shouldCollectTelemetry` returns no key
whenever redaction detects an encrypted-payload marker (the sentinel
field name `__safeContent__`, an `$_internalFle` operator, the sentinel
path, or deterministic-encrypted BinData).  The code does the opposite
for the first two marker kinds: the `uassert` conditions in
`throwIfEncounteringFLEPayload` are inverted, so a request whose stage
contains exactly the `__safeContent__` marker yields a key (first
conjunct), while a marker-free request with an ordinary nested object is
refused (second conjunct).  Only the BinData branch behaves as the claim
states: a deterministic-encrypted binary payload yields no key (third
conjunct). -/
theorem C1_inverted_fle_check :
    (shouldCollectTelemetryAgg fleMarkerRequest ⟨none⟩ svcGrant).1 = .ok (some fleMarkerKey) ∧
    (shouldCollectTelemetryAgg benignNestedRequest ⟨none⟩ svcGrant).1 = .ok none ∧
    (shouldCollectTelemetryAgg
      { pipeline := [.objCons "$match" (.objCons "a" (.binData 6 [0, 1, 2]) .objNil) .objNil]
        nss := "test.coll", encryptionInformation := false, readConcern := none }
      ⟨none⟩ svcGrant).1 = .ok none := by
  refine ⟨by decide, by decide, by decide⟩

/-- Unfolding of the sampling gate when the configured rate is zero: the
quick escape in `shouldCollect` fires and the limiter is untouched. -/
theorem shouldCollect_rate_zero (svc : ServiceState)
    (h : svc.rateLimiter.samplingRate = 0) : shouldCollect svc = (false, svc) := by
  simp [shouldCollect, isTelemetryEnabled, h]

/-- C3: with a configured sampling rate of 0, every overload of
`shouldCollectTelemetry` returns nothing — aggregate, find, and
prebuilt-key — and an operation's full telemetry life cycle leaves the
store untouched, so the store remains empty. -/
theorem C3_rate_zero_disables :
    ∀ (aggReq : AggregateCommandRequest) (findReq : FindCommandRequest)
      (coll : String) (key : BSON) (opCtx : OpCtx) (svc : ServiceState)
      (store : TelemetryStore) (d : OpDebug) (isExec : Bool),
      svc.rateLimiter.samplingRate = 0 →
      (shouldCollectTelemetryAgg aggReq opCtx svc).1 = .ok none ∧
      (shouldCollectTelemetryFind findReq coll opCtx svc).1 = .ok none ∧
      (shouldCollectTelemetryPrebuilt key svc).1 = none ∧
      (runAggOperation aggReq opCtx svc store d isExec).2 = .ok store := by
  intro aggReq findReq coll key opCtx svc store d isExec h
  have hsc : shouldCollect svc = (false, svc) := shouldCollect_rate_zero svc h
  have hagg : shouldCollectTelemetryAgg aggReq opCtx svc = (.ok none, svc) := by
    unfold shouldCollectTelemetryAgg
    rw [hsc]
    split <;> simp
  refine ⟨by rw [hagg], ?_, ?_, ?_⟩
  · unfold shouldCollectTelemetryFind
    rw [hsc]
    split <;> simp
  · unfold shouldCollectTelemetryPrebuilt
    rw [hsc]
    split <;> simp
  · unfold runAggOperation
    rw [hagg]

/-- Witness for C3 at a concrete request, store and context. -/
theorem C3_rate_zero_disables_witness :
    (shouldCollectTelemetryAgg fleMarkerRequest ⟨none⟩
        ⟨⟨0, 1000000, 0, 0⟩, 5⟩).1 = .ok none ∧
    (shouldCollectTelemetryFind ⟨.objNil, false, none⟩ "t" ⟨none⟩
        ⟨⟨0, 1000000, 0, 0⟩, 5⟩).1 = .ok none ∧
    (shouldCollectTelemetryPrebuilt (.objCons "k" (.int 1) .objNil)
        ⟨⟨0, 1000000, 0, 0⟩, 5⟩).1 = none ∧
    (runAggOperation fleMarkerRequest ⟨none⟩ ⟨⟨0, 1000000, 0, 0⟩, 5⟩
        (emptyTelemetryStore 1000 2) ⟨1, 2, 3, none, none⟩ true).2 =
      .ok (emptyTelemetryStore 1000 2) :=
  C3_rate_zero_disables fleMarkerRequest ⟨.objNil, false, none⟩ "t"
    (.objCons "k" (.int 1) .objNil) ⟨none⟩ ⟨⟨0, 1000000, 0, 0⟩, 5⟩
    (emptyTelemetryStore 1000 2) ⟨1, 2, 3, none, none⟩ true rfl

/-- Characterization of a granted admission while the window is open: the
window counter is incremented and nothing else changes. -/
theorem shouldCollect_grant (svc : ServiceState)
    (hwin : svc.now < svc.rateLimiter.windowStart + svc.rateLimiter.windowLenMicros)
    (hcnt : svc.rateLimiter.countInWindow < svc.rateLimiter.samplingRate) :
    shouldCollect svc =
      (true, { svc with rateLimiter :=
          { svc.rateLimiter with countInWindow := svc.rateLimiter.countInWindow + 1 } }) := by
  have hen : isTelemetryEnabled svc = true := by
    simp only [isTelemetryEnabled, decide_eq_true_eq]
    omega
  have hroll : ¬ (svc.rateLimiter.windowStart + svc.rateLimiter.windowLenMicros ≤ svc.now) := by
    omega
  simp [shouldCollect, hen, RateLimiting.handleRequestSlidingWindow, hroll, hcnt]

/-- Characterization of a denied admission while the window is open and
the rate already consumed (or zero): the state is unchanged. -/
theorem shouldCollect_deny (svc : ServiceState)
    (hwin : svc.now < svc.rateLimiter.windowStart + svc.rateLimiter.windowLenMicros)
    (hcnt : svc.rateLimiter.samplingRate ≤ svc.rateLimiter.countInWindow) :
    shouldCollect svc = (false, svc) := by
  by_cases hz : svc.rateLimiter.samplingRate = 0
  · exact shouldCollect_rate_zero svc hz
  · have hen : isTelemetryEnabled svc = true := by
      simp only [isTelemetryEnabled, decide_eq_true_eq]
      omega
    have hroll : ¬ (svc.rateLimiter.windowStart + svc.rateLimiter.windowLenMicros ≤ svc.now) := by
      omega
    have hlt : ¬ (svc.rateLimiter.countInWindow < svc.rateLimiter.samplingRate) := by omega
    simp [shouldCollect, hen, RateLimiting.handleRequestSlidingWindow, hroll, hlt]

/-- A produced aggregate key implies the sampling gate granted and the
returned state is the gate's post-state. -/
theorem agg_some_granted (req : AggregateCommandRequest) (opCtx : OpCtx)
    (svc svc1 : ServiceState) (key : BSON)
    (h : shouldCollectTelemetryAgg req opCtx svc = (.ok (some key), svc1)) :
    (shouldCollect svc).1 = true ∧ (shouldCollect svc).2 = svc1 := by
  unfold shouldCollectTelemetryAgg at h
  split at h
  · simp at h
  · split at h
    · simp at h
    · rcases hsc : shouldCollect svc with ⟨g, s1⟩
      rw [hsc] at h
      cases g with
      | false => simp at h
      | true =>
          rw [if_neg (by simp)] at h
          refine ⟨rfl, ?_⟩
          cases hb : buildAggPipeline req.pipeline with
          | error e =>
              rw [hb] at h
              cases e <;> simp_all
          | ok stages =>
              rw [hb] at h
              simp_all

/-- C10: the prebuilt-key overload of `shouldCollectTelemetry` returns
nothing when the key is empty (without even consulting the sampling
gate), and otherwise re-runs the full sampling check: a granted check
consumes one more sliding-window admission and returns the key unchanged,
a denied check returns nothing.  Composed with the key-building overload,
a single operation that passes both checks consumes two admissions from
the same window. -/
theorem C10_prebuilt_overload :
    (∀ svc : ServiceState, shouldCollectTelemetryPrebuilt .objNil svc = (none, svc)) ∧
    (∀ (key : BSON) (svc : ServiceState),
        key.isEmptyObj = false →
        svc.now < svc.rateLimiter.windowStart + svc.rateLimiter.windowLenMicros →
        svc.rateLimiter.countInWindow < svc.rateLimiter.samplingRate →
        shouldCollectTelemetryPrebuilt key svc =
          (some key, { svc with rateLimiter :=
              { svc.rateLimiter with
                  countInWindow := svc.rateLimiter.countInWindow + 1 } })) ∧
    (∀ (key : BSON) (svc : ServiceState),
        key.isEmptyObj = false →
        svc.now < svc.rateLimiter.windowStart + svc.rateLimiter.windowLenMicros →
        svc.rateLimiter.samplingRate ≤ svc.rateLimiter.countInWindow →
        shouldCollectTelemetryPrebuilt key svc = (none, svc)) ∧
    (∀ (req : AggregateCommandRequest) (opCtx : OpCtx) (svc svc1 : ServiceState) (key : BSON),
        shouldCollectTelemetryAgg req opCtx svc = (.ok (some key), svc1) →
        svc.now < svc.rateLimiter.windowStart + svc.rateLimiter.windowLenMicros →
        svc1.rateLimiter.countInWindow = svc.rateLimiter.countInWindow + 1 ∧
        (key.isEmptyObj = false →
         svc1.now < svc1.rateLimiter.windowStart + svc1.rateLimiter.windowLenMicros →
         svc1.rateLimiter.countInWindow < svc1.rateLimiter.samplingRate →
         (shouldCollectTelemetryPrebuilt key svc1).1 = some key ∧
         (shouldCollectTelemetryPrebuilt key svc1).2.rateLimiter.countInWindow =
           svc.rateLimiter.countInWindow + 2)) := by
  refine ⟨fun svc => rfl, ?_, ?_, ?_⟩
  · intro key svc hne hwin hcnt
    unfold shouldCollectTelemetryPrebuilt
    rw [shouldCollect_grant svc hwin hcnt]
    simp [hne]
  · intro key svc hne hwin hcnt
    unfold shouldCollectTelemetryPrebuilt
    rw [shouldCollect_deny svc hwin hcnt]
    simp [hne]
  · intro req opCtx svc svc1 key h hwin
    obtain ⟨hg, hs⟩ := agg_some_granted req opCtx svc svc1 key h
    have hcnt : svc.rateLimiter.countInWindow < svc.rateLimiter.samplingRate := by
      by_contra hge
      rw [shouldCollect_deny svc hwin (by omega)] at hg
      simp at hg
    have hplus : svc1 = { svc with rateLimiter :=
        { svc.rateLimiter with countInWindow := svc.rateLimiter.countInWindow + 1 } } := by
      rw [← hs, shouldCollect_grant svc hwin hcnt]
    constructor
    · rw [hplus]
    · intro hne hwin1 hcnt1
      have h2 : shouldCollectTelemetryPrebuilt key svc1 =
          (some key, { svc1 with rateLimiter :=
              { svc1.rateLimiter with
                  countInWindow := svc1.rateLimiter.countInWindow + 1 } }) := by
        unfold shouldCollectTelemetryPrebuilt
        rw [shouldCollect_grant svc1 hwin1 hcnt1]
        simp [hne]
      refine ⟨by rw [h2], ?_⟩
      rw [h2]
      subst hplus
      simp

/-- Witness for C10 at a concrete nonempty key and a granting state. -/
theorem C10_prebuilt_overload_witness :
    shouldCollectTelemetryPrebuilt (.objCons "k" (.int 1) .objNil) svcGrant =
      (some (.objCons "k" (.int 1) .objNil), ⟨⟨1, 1000000, 0, 1⟩, 5⟩) :=
  C10_prebuilt_overload.2.1 (.objCons "k" (.int 1) .objNil) svcGrant rfl
    (by decide) (by decide)

/-- C6 counterexample: with one shared read hold outstanding, the
exclusive-swap path (`resetTelemetryStore`) must wait, yet
`updateCacheSize` proceeds and changes the live store, to exactly the
in-place `reset` of the held instance — so resize does not go through the
exclusive-swap path and does mutate the store held under a shared read
hold, contradicting the claim. -/
theorem C6_in_place_resize_counterexample :
    (updateCacheSize ⟨emptyTelemetryStore 1000 2, [emptyTelemetryStore 1000 2]⟩ 5).telemetryStore ≠
      emptyTelemetryStore 1000 2 ∧
    (updateCacheSize ⟨emptyTelemetryStore 1000 2, [emptyTelemetryStore 1000 2]⟩ 5).telemetryStore =
      (emptyTelemetryStore 1000 2).reset 5 ∧
    (⟨emptyTelemetryStore 1000 2, [emptyTelemetryStore 1000 2]⟩ :
        TelemetryStoreManager).resetTelemetryStore = none := by
  refine ⟨by decide, by decide, by decide⟩

/-- C6 amended: `updateCacheSize` is an in-place resize of the live store
performed under a shared read hold: the store's byte budget becomes the
capped requested size and its entries are cleared while the partition
count stays, the manager's outstanding shared holds are untouched, and
the operation proceeds even when shared holds are outstanding — a state
in which the exclusive-swap path (`resetTelemetryStore`) must wait. -/
theorem C6_resize_is_in_place :
    ∀ (mgr : TelemetryStoreManager) (requestedSize : Nat),
      ((updateCacheSize mgr requestedSize).telemetryStore.size =
          capMemorySize requestedSize kMaxSizeBytes kPercentCapBytes ∧
       (updateCacheSize mgr requestedSize).telemetryStore.numPartitions =
          mgr.telemetryStore.numPartitions ∧
       (updateCacheSize mgr requestedSize).telemetryStore.partitions =
          List.replicate mgr.telemetryStore.numPartitions [] ∧
       (updateCacheSize mgr requestedSize).readers = mgr.readers) ∧
      (mgr.readers ≠ [] → mgr.resetTelemetryStore = none) := by
  intro mgr requestedSize
  refine ⟨⟨rfl, rfl, rfl, rfl⟩, ?_⟩
  intro hne
  unfold TelemetryStoreManager.resetTelemetryStore
  simp [List.isEmpty_iff, hne]

/-- Witness for C6 at a concrete manager with an outstanding reader. -/
theorem C6_resize_is_in_place_witness :
    ((updateCacheSize ⟨emptyTelemetryStore 1000 2, [emptyTelemetryStore 1000 2]⟩ 5).telemetryStore.size = 5 ∧
     (updateCacheSize ⟨emptyTelemetryStore 1000 2, [emptyTelemetryStore 1000 2]⟩ 5).telemetryStore.numPartitions = 2 ∧
     (updateCacheSize ⟨emptyTelemetryStore 1000 2, [emptyTelemetryStore 1000 2]⟩ 5).telemetryStore.partitions =
        List.replicate 2 [] ∧
     (updateCacheSize ⟨emptyTelemetryStore 1000 2, [emptyTelemetryStore 1000 2]⟩ 5).readers =
        [emptyTelemetryStore 1000 2]) ∧
    ((⟨emptyTelemetryStore 1000 2, [emptyTelemetryStore 1000 2]⟩ :
        TelemetryStoreManager).resetTelemetryStore = none) :=
  ⟨(C6_resize_is_in_place ⟨emptyTelemetryStore 1000 2, [emptyTelemetryStore 1000 2]⟩ 5).1,
   (C6_resize_is_in_place ⟨emptyTelemetryStore 1000 2, [emptyTelemetryStore 1000 2]⟩ 5).2
     (by decide)⟩

/-- Preservation of the manager invariant — every outstanding shared hold
observes exactly the current store instance — by each protocol step. -/
theorem managerStep_preserves (a b : TelemetryStoreManager)
    (hstep : ManagerStep a b)
    (hinv : ∀ r ∈ a.readers, r = a.telemetryStore) :
    ∀ r ∈ b.readers, r = b.telemetryStore := by
  cases hstep with
  | acquireRead =>
      intro r hr
      rcases List.mem_cons.mp hr with h | h
      · exact h
      · exact hinv r h
  | releaseRead x pre post hsplit =>
      intro r hr
      apply hinv
      rw [hsplit]
      rcases List.mem_append.mp hr with h | h
      · exact List.mem_append.mpr (Or.inl h)
      · exact List.mem_append.mpr (Or.inr (List.mem_cons_of_mem _ h))
  | reset m' old hreset =>
      unfold TelemetryStoreManager.resetTelemetryStore at hreset
      split at hreset
      · rename_i hempty
        rw [List.isEmpty_iff] at hempty
        injection hreset with hpair
        have hb : b =
            ⟨emptyTelemetryStore a.telemetryStore.size a.telemetryStore.numPartitions,
             a.readers⟩ := by
          simpa using (congrArg Prod.snd hpair).symm
        intro r hr
        rw [hb] at hr
        simp [hempty] at hr
      · exact absurd hreset (by simp)

/-- C4: `resetTelemetryStore` is enabled only once every outstanding
shared hold has released (the exclusive lock waits otherwise); when it
runs it installs a newly constructed empty store with the old store's
byte budget and partition count and hands the previous instance back to
the caller.  Along any run of the manager's protocol started with no
outstanding holds, every outstanding shared hold observes exactly the
current store instance for its whole duration — an instance is never
swapped out from under a hold, so a reader that acquired its guard before
a reset keeps observing the fully-old instance. -/
theorem C4_reset_swap :
    (∀ mgr : TelemetryStoreManager, mgr.readers = [] →
        mgr.resetTelemetryStore =
          some (mgr.telemetryStore,
            ⟨emptyTelemetryStore mgr.telemetryStore.size mgr.telemetryStore.numPartitions,
             []⟩)) ∧
    (∀ mgr : TelemetryStoreManager, mgr.readers ≠ [] → mgr.resetTelemetryStore = none) ∧
    (∀ init mgr : TelemetryStoreManager, init.readers = [] →
        Relation.ReflTransGen ManagerStep init mgr →
        ∀ r ∈ mgr.readers, r = mgr.telemetryStore) := by
  refine ⟨?_, ?_, ?_⟩
  · intro mgr h
    unfold TelemetryStoreManager.resetTelemetryStore
    rw [h]
    rfl
  · intro mgr h
    unfold TelemetryStoreManager.resetTelemetryStore
    simp [List.isEmpty_iff, h]
  · intro init mgr hinit htrans
    induction htrans with
    | refl =>
        intro r hr
        rw [hinit] at hr
        cases hr
    | tail _ hstep ih => exact managerStep_preserves _ _ hstep ih

/-- Witness for C4: a concrete reset on a manager with no outstanding
holds returns the old instance and installs a same-shaped empty store. -/
theorem C4_reset_swap_witness :
    (⟨⟨1000, 2, [[], [(.objCons "k" (.int 1) .objNil, TelemetryMetrics.empty)]]⟩, []⟩ :
        TelemetryStoreManager).resetTelemetryStore =
      some (⟨1000, 2, [[], [(.objCons "k" (.int 1) .objNil, TelemetryMetrics.empty)]]⟩,
        ⟨emptyTelemetryStore 1000 2, []⟩) :=
  C4_reset_swap.1
    ⟨⟨1000, 2, [[], [(.objCons "k" (.int 1) .objNil, TelemetryMetrics.empty)]]⟩, []⟩ rfl

/-- Eviction on an empty partition is the identity. -/
theorem evictLoop_nil (budget fuel : Nat) : evictLoop budget fuel [] = [] := by
  cases fuel with
  | zero => rfl
  | succ n => simp [evictLoop, partitionSize]

/-- Unfolding of a partition's charge over a cons cell. -/
theorem partitionSize_cons (e : Entry) (rest : List Entry) :
    partitionSize (e :: rest) = entrySize e.1 + partitionSize rest := by
  simp [partitionSize]

/-- When the front (most-recent) entry alone exceeds the partition
budget, the eviction loop — which always drops from the back — ends up
emptying the partition. -/
theorem evictLoop_too_big (budget : Nat) (e : Entry) (hbig : budget < entrySize e.1) :
    ∀ (fuel : Nat) (rest : List Entry), rest.length < fuel →
      evictLoop budget fuel (e :: rest) = [] := by
  intro fuel
  induction fuel with
  | zero => intro rest h; omega
  | succ n ih =>
      intro rest hlen
      have hgt : ¬ partitionSize (e :: rest) ≤ budget := by
        rw [partitionSize_cons]
        omega
      unfold evictLoop
      rw [if_neg hgt]
      cases rest with
      | nil => simpa using evictLoop_nil budget n
      | cons b bs =>
          have hdl : (e :: b :: bs).dropLast = e :: (b :: bs).dropLast := rfl
          rw [hdl]
          apply ih
          simp at hlen ⊢
          omega

/-- When the front (most-recent) entry fits the budget by itself, the
eviction loop keeps it: the result still starts with that entry. -/
theorem evictLoop_head_fits (budget : Nat) (e : Entry) (hfit : entrySize e.1 ≤ budget) :
    ∀ (fuel : Nat) (rest : List Entry),
      ∃ q, evictLoop budget fuel (e :: rest) = e :: q := by
  intro fuel
  induction fuel with
  | zero => intro rest; exact ⟨rest, rfl⟩
  | succ n ih =>
      intro rest
      unfold evictLoop
      split
      · exact ⟨rest, rfl⟩
      · rename_i hgt
        cases rest with
        | nil =>
            exfalso
            apply hgt
            simpa [partitionSize] using hfit
        | cons b bs =>
            have hdl : (e :: b :: bs).dropLast = e :: (b :: bs).dropLast := rfl
            rw [hdl]
            exact ih (b :: bs).dropLast

/-- C5: when a key misses and even a single fresh entry exceeds the
key's partition budget — the misconfiguration of partition count versus
total byte budget — `collectTelemetry` hits the failed
`tassert(7064700, ...)`, modelled as the `fatalInvariant` outcome: the
process aborts instead of reporting a per-request recoverable error or
continuing with inconsistent accounting. -/
theorem C5_unfit_entry_is_fatal :
    ∀ (store : TelemetryStore) (key : BSON) (d : OpDebug) (isExec : Bool),
      store.lookup key = none →
      store.partitionBudget < entrySize key →
      collectTelemetry store key d isExec = .fatalInvariant 7064700 := by
  intro store key d isExec hmiss hbig
  have hmiss' : pLookup (store.partitionFor key) key = none := hmiss
  have hins : pInsert store.partitionBudget (store.partitionFor key) key .empty = [] := by
    unfold pInsert
    apply evictLoop_too_big store.partitionBudget (key, TelemetryMetrics.empty) hbig
    simp
  unfold collectTelemetry
  simp only [hmiss', hins]
  rfl

/-- Witness for C5: a one-partition store with a zero byte budget aborts
on the first insertion. -/
theorem C5_unfit_entry_is_fatal_witness :
    collectTelemetry (emptyTelemetryStore 0 1) (.objCons "k" (.int 1) .objNil)
      ⟨1, 2, 3, none, none⟩ true = .fatalInvariant 7064700 :=
  C5_unfit_entry_is_fatal (emptyTelemetryStore 0 1) (.objCons "k" (.int 1) .objNil)
    ⟨1, 2, 3, none, none⟩ true (by decide) (by decide)

/-- Replacing a partition keeps the store well-formed. -/
theorem wf_setPartition (store : TelemetryStore) (key : BSON) (p : List Entry)
    (hwf : store.wf) : (store.setPartition key p).wf := by
  obtain ⟨h1, h2⟩ := hwf
  exact ⟨h1, by simp [TelemetryStore.setPartition, h2]⟩

/-- After installing a partition whose most-recent entry is `(key, m)`,
looking `key` up finds `m`. -/
theorem lookup_setPartition_front (store : TelemetryStore) (key : BSON)
    (m : TelemetryMetrics) (q : List Entry) (hwf : store.wf) :
    (store.setPartition key ((key, m) :: q)).lookup key = some m := by
  obtain ⟨h1, h2⟩ := hwf
  have hlt : store.partitionOf key < store.partitions.length := by
    rw [h2]
    exact Nat.mod_lt _ h1
  show pLookup ((store.partitions.set (store.partitionOf key) ((key, m) :: q)).getD
      (store.partitionOf key) []) key = some m
  rw [List.getD_eq_getElem?_getD, List.getElem?_set_self hlt]
  simp [pLookup]

/-- The hit path of `collectTelemetry`: the entry is mutated in place (and
promoted to most recent) in the key's partition. -/
theorem collect_found (store : TelemetryStore) (key : BSON) (d : OpDebug)
    (isExec : Bool) (m : TelemetryMetrics) (hfound : store.lookup key = some m) :
    collectTelemetry store key d isExec =
      .ok (store.setPartition key ((key, updateMetrics m d isExec) ::
        (store.partitionFor key).filter fun e => ¬ e.1 = key)) := by
  have hfound' : pLookup (store.partitionFor key) key = some m := hfound
  unfold collectTelemetry
  simp only [hfound']

/-- The miss path of `collectTelemetry` when a fresh entry fits the
partition budget: the default-constructed entry is inserted (with
eviction from the least-recent end) and then mutated. -/
theorem collect_fresh (store : TelemetryStore) (key : BSON) (d : OpDebug) (isExec : Bool)
    (hmiss : store.lookup key = none)
    (hfit : entrySize key ≤ store.partitionBudget) :
    ∃ q, collectTelemetry store key d isExec =
      .ok (store.setPartition key ((key, updateMetrics .empty d isExec) :: q)) := by
  have hmiss' : pLookup (store.partitionFor key) key = none := hmiss
  obtain ⟨q, hq⟩ := evictLoop_head_fits store.partitionBudget (key, TelemetryMetrics.empty)
    hfit
    ((key, TelemetryMetrics.empty) ::
      ((store.partitionFor key).filter fun e => ¬ e.1 = key)).length
    ((store.partitionFor key).filter fun e => ¬ e.1 = key)
  have hins : pInsert store.partitionBudget (store.partitionFor key) key .empty =
      (key, TelemetryMetrics.empty) :: q := hq
  refine ⟨((key, TelemetryMetrics.empty) :: q).filter fun e => ¬ e.1 = key, ?_⟩
  unfold collectTelemetry
  simp only [hmiss', hins]
  have hlk : pLookup ((key, TelemetryMetrics.empty) :: q) key =
      some TelemetryMetrics.empty := by
    simp [pLookup]
  simp only [hlk]

/-- C7: on a hit, `collectTelemetry` produces an updated store in which
the key's metrics satisfy the record contract — the execution count and
the planning-latency aggregate move exactly when an execution phase
occurred (`isExec`), every aggregated metric's count/sum/min/max fold in
the sample, and the latest execution latency is stored verbatim rather
than aggregated. -/
theorem C7_collect_updates_metrics :
    ∀ (store : TelemetryStore) (key : BSON) (d : OpDebug) (isExec : Bool)
      (m : TelemetryMetrics),
      store.wf →
      store.lookup key = some m →
      ∃ store', collectTelemetry store key d isExec = .ok store' ∧
        ∃ m', store'.lookup key = some m' ∧
          (isExec = true →
            m'.execCount = m.execCount + 1 ∧
            m'.queryOptMicros.count = m.queryOptMicros.count + 1 ∧
            m'.queryOptMicros.sum = m.queryOptMicros.sum + d.planningTimeMicros ∧
            m'.queryOptMicros.min =
              some (Nat.min (m.queryOptMicros.min.getD d.planningTimeMicros)
                d.planningTimeMicros) ∧
            m'.queryOptMicros.max =
              some (Nat.max (m.queryOptMicros.max.getD d.planningTimeMicros)
                d.planningTimeMicros)) ∧
          (isExec = false →
            m'.execCount = m.execCount ∧ m'.queryOptMicros = m.queryOptMicros) ∧
          m'.lastExecutionMicros = d.executionTimeMicros ∧
          m'.queryExecMicros.count = m.queryExecMicros.count + 1 ∧
          m'.queryExecMicros.sum = m.queryExecMicros.sum + d.executionTimeMicros ∧
          m'.queryExecMicros.min =
            some (Nat.min (m.queryExecMicros.min.getD d.executionTimeMicros)
              d.executionTimeMicros) ∧
          m'.queryExecMicros.max =
            some (Nat.max (m.queryExecMicros.max.getD d.executionTimeMicros)
              d.executionTimeMicros) ∧
          m'.docsReturned = m.docsReturned.aggregate d.nreturned ∧
          m'.docsScanned = m.docsScanned.aggregate (d.docsExamined.getD 0) ∧
          m'.keysScanned = m.keysScanned.aggregate (d.keysExamined.getD 0) := by
  intro store key d isExec m hwf hfound
  refine ⟨_, collect_found store key d isExec m hfound,
    updateMetrics m d isExec, lookup_setPartition_front store key _ _ hwf, ?_⟩
  cases isExec <;>
    simp [updateMetrics, AggregatedMetric.aggregate]

/-- Witness for C7 at a concrete one-entry store and execution stats. -/
theorem C7_collect_updates_metrics_witness :
    ∃ store', collectTelemetry ⟨1000, 1, [[(.objCons "k" (.int 1) .objNil,
        TelemetryMetrics.empty)]]⟩ (.objCons "k" (.int 1) .objNil)
        ⟨10, 20, 3, some 7, none⟩ true = .ok store' :=
  match C7_collect_updates_metrics ⟨1000, 1, [[(.objCons "k" (.int 1) .objNil,
      TelemetryMetrics.empty)]]⟩ (.objCons "k" (.int 1) .objNil)
      ⟨10, 20, 3, some 7, none⟩ true TelemetryMetrics.empty
      ⟨by decide, by decide⟩ (by decide) with
  | ⟨s, hs, _⟩ => ⟨s, hs⟩

/-- C9: a plan-only observation (`isExec = false`) still mutates the
entry: the documents-returned, documents-scanned and keys-scanned
aggregates fold in the sample, the execution latency is aggregated into
`queryExecMicros`, and `lastExecutionMicros` is overwritten; only the
execution count and the planning-latency aggregate stay unchanged. -/
theorem C9_plan_only_still_mutates :
    ∀ (store : TelemetryStore) (key : BSON) (d : OpDebug) (m : TelemetryMetrics),
      store.wf →
      store.lookup key = some m →
      ∃ store', collectTelemetry store key d false = .ok store' ∧
        ∃ m', store'.lookup key = some m' ∧
          m'.execCount = m.execCount ∧
          m'.queryOptMicros = m.queryOptMicros ∧
          m'.docsReturned = m.docsReturned.aggregate d.nreturned ∧
          m'.docsScanned = m.docsScanned.aggregate (d.docsExamined.getD 0) ∧
          m'.keysScanned = m.keysScanned.aggregate (d.keysExamined.getD 0) ∧
          m'.queryExecMicros = m.queryExecMicros.aggregate d.executionTimeMicros ∧
          m'.lastExecutionMicros = d.executionTimeMicros := by
  intro store key d m hwf hfound
  refine ⟨_, collect_found store key d false m hfound,
    updateMetrics m d false, lookup_setPartition_front store key _ _ hwf, ?_⟩
  simp [updateMetrics]

/-- Witness for C9 at a concrete one-entry store. -/
theorem C9_plan_only_still_mutates_witness :
    ∃ store', collectTelemetry ⟨1000, 1, [[(.objCons "k" (.int 1) .objNil,
        TelemetryMetrics.empty)]]⟩ (.objCons "k" (.int 1) .objNil)
        ⟨10, 20, 3, some 7, none⟩ false = .ok store' :=
  match C9_plan_only_still_mutates ⟨1000, 1, [[(.objCons "k" (.int 1) .objNil,
      TelemetryMetrics.empty)]]⟩ (.objCons "k" (.int 1) .objNil)
      ⟨10, 20, 3, some 7, none⟩ TelemetryMetrics.empty
      ⟨by decide, by decide⟩ (by decide) with
  | ⟨s, hs, _⟩ => ⟨s, hs⟩

/-- The running aggregate after `n` samples of the constant value `v`. -/
def constAggregate (n v : Nat) : AggregatedMetric :=
  ⟨n * v, n, some v, some v⟩

/-- The metrics record after `n ≥ 1` executions with the constant
statistics `d`. -/
def expectedMetrics (n : Nat) (d : OpDebug) : TelemetryMetrics :=
  { execCount := n
    lastExecutionMicros := d.executionTimeMicros
    queryOptMicros := constAggregate n d.planningTimeMicros
    queryExecMicros := constAggregate n d.executionTimeMicros
    docsReturned := constAggregate n d.nreturned
    docsScanned := constAggregate n (d.docsExamined.getD 0)
    keysScanned := constAggregate n (d.keysExamined.getD 0) }

/-- The first recorded execution turns a fresh record into the
one-sample constant record. -/
theorem updateMetrics_empty (d : OpDebug) :
    updateMetrics .empty d true = expectedMetrics 1 d := by
  simp [updateMetrics, AggregatedMetric.aggregate, TelemetryMetrics.empty,
    AggregatedMetric.empty, expectedMetrics, constAggregate]

/-- Each further recorded execution with the same statistics advances the
constant record by one. -/
theorem updateMetrics_step (n : Nat) (d : OpDebug) :
    updateMetrics (expectedMetrics n d) d true = expectedMetrics (n + 1) d := by
  simp [updateMetrics, AggregatedMetric.aggregate, expectedMetrics, constAggregate,
    Nat.succ_mul]

/-- The metrics mutation iterated `k` times. -/
def iterUpdate (d : OpDebug) : Nat → TelemetryMetrics → TelemetryMetrics
  | 0, m => m
  | k + 1, m => iterUpdate d k (updateMetrics m d true)

/-- Iterating the mutation from a constant record yields the constant
record advanced by the iteration count. -/
theorem iterUpdate_expected (d : OpDebug) :
    ∀ (k n : Nat), iterUpdate d k (expectedMetrics n d) = expectedMetrics (n + k) d := by
  intro k
  induction k with
  | zero => intro n; rfl
  | succ j ih =>
      intro n
      show iterUpdate d j (updateMetrics (expectedMetrics n d) d true) = _
      rw [updateMetrics_step, ih]
      congr 1
      omega

/-- Starting from a store that already holds the key, `k` further
recordings succeed and leave the key's metrics `k` mutations further. -/
theorem collectN_found (key : BSON) (d : OpDebug) :
    ∀ (k : Nat) (store : TelemetryStore) (m : TelemetryMetrics),
      store.wf → store.lookup key = some m →
      ∃ store', collectN key d true k store = .ok store' ∧ store'.wf ∧
        store'.lookup key = some (iterUpdate d k m) := by
  intro k
  induction k with
  | zero => intro s m hwf hm; exact ⟨s, rfl, hwf, hm⟩
  | succ j ih =>
      intro s m hwf hm
      have hc := collect_found s key d true m hm
      obtain ⟨s', h1, h2, h3⟩ :=
        ih (s.setPartition key ((key, updateMetrics m d true) ::
            (s.partitionFor key).filter fun e => ¬ e.1 = key))
          (updateMetrics m d true)
          (wf_setPartition s key _ hwf)
          (lookup_setPartition_front s key _ _ hwf)
      refine ⟨s', ?_, h2, h3⟩
      unfold collectN
      rw [hc]
      exact h1

/-- C8: recording the same execution statistics `n ≥ 1` times under the
same key, starting from a store where the key is fresh and a fresh entry
fits the partition budget, yields an entry with execution count `n`,
every aggregate's sum equal to `n` times the constant sample, and the
aggregate's minimum and maximum both equal to that sample. -/
theorem C8_constant_aggregation :
    ∀ (store : TelemetryStore) (key : BSON) (d : OpDebug) (n : Nat),
      store.wf →
      store.lookup key = none →
      entrySize key ≤ store.partitionBudget →
      0 < n →
      ∃ store', collectN key d true n store = .ok store' ∧
        ∃ m, store'.lookup key = some m ∧
          m.execCount = n ∧
          m.queryExecMicros.count = n ∧
          m.queryExecMicros.sum = n * d.executionTimeMicros ∧
          m.queryExecMicros.min = some d.executionTimeMicros ∧
          m.queryExecMicros.max = some d.executionTimeMicros ∧
          m.queryOptMicros.sum = n * d.planningTimeMicros ∧
          m.queryOptMicros.min = some d.planningTimeMicros ∧
          m.queryOptMicros.max = some d.planningTimeMicros ∧
          m.docsReturned.sum = n * d.nreturned ∧
          m.docsReturned.min = some d.nreturned ∧
          m.docsReturned.max = some d.nreturned ∧
          m.docsScanned.sum = n * (d.docsExamined.getD 0) ∧
          m.docsScanned.min = some (d.docsExamined.getD 0) ∧
          m.docsScanned.max = some (d.docsExamined.getD 0) ∧
          m.keysScanned.sum = n * (d.keysExamined.getD 0) ∧
          m.keysScanned.min = some (d.keysExamined.getD 0) ∧
          m.keysScanned.max = some (d.keysExamined.getD 0) := by
  intro store key d n hwf hmiss hfit hpos
  obtain ⟨k, rfl⟩ : ∃ k, n = k + 1 := ⟨n - 1, by omega⟩
  obtain ⟨q, hstep⟩ := collect_fresh store key d true hmiss hfit
  obtain ⟨s', hrun, hwf', hlook⟩ :=
    collectN_found key d k
      (store.setPartition key ((key, updateMetrics .empty d true) :: q))
      (updateMetrics .empty d true)
      (wf_setPartition store key _ hwf)
      (lookup_setPartition_front store key _ _ hwf)
  have hmexp : iterUpdate d k (updateMetrics .empty d true) = expectedMetrics (k + 1) d := by
    rw [updateMetrics_empty, iterUpdate_expected]
    congr 1
    omega
  refine ⟨s', ?_, iterUpdate d k (updateMetrics .empty d true), hlook, ?_⟩
  · unfold collectN
    rw [hstep]
    exact hrun
  · rw [hmexp]
    simp [expectedMetrics, constAggregate]

/-- Witness for C8: three identical recordings on a fresh one-partition
store. -/
theorem C8_constant_aggregation_witness :
    ∃ store', collectN (.objCons "k" (.int 1) .objNil) ⟨10, 20, 3, some 7, none⟩ true 3
      (emptyTelemetryStore 1000 1) = .ok store' :=
  match C8_constant_aggregation (emptyTelemetryStore 1000 1)
      (.objCons "k" (.int 1) .objNil) ⟨10, 20, 3, some 7, none⟩ 3
      ⟨by decide, by decide⟩ (by decide) (by decide) (by decide) with
  | ⟨s, hs, _⟩ => ⟨s, hs⟩

/-- The redaction class of a BinData payload: for an Encrypt-tagged
payload, whether it passes `throwIfEncounteringFLEPayload`; other
subtypes are unconstrained. -/
def binMarkerClass (st : Nat) (bytes : List Nat) : Bool :=
  if st = binDataTypeEncrypt then
    decide (bytes.length > 1 ∧ bytes.getD 1 0 ≠ kDeterministic)
  else true

/-- Structural shape equivalence of two BSON values: identical trees of
field names and containers, with literal leaves equivalent exactly when
redaction cannot distinguish them — same BSON type; for strings,
agreement on being the sentinel path; for binary data, same subtype and
same marker class. -/
def sameShape : BSON → BSON → Bool
  | .int _, .int _ => true
  | .bool _, .bool _ => true
  | .null, .null => true
  | .str a, .str b => decide (a = safeContentFieldpath) == decide (b = safeContentFieldpath)
  | .binData s1 b1, .binData s2 b2 =>
      s1 == s2 && binMarkerClass s1 b1 == binMarkerClass s2 b2
  | .objNil, .objNil => true
  | .objCons n1 v1 r1, .objCons n2 v2 r2 =>
      n1 == n2 && sameShape v1 v2 && sameShape r1 r2
  | .arrNil, .arrNil => true
  | .arrCons n1 v1 r1, .arrCons n2 v2 r2 =>
      n1 == n2 && sameShape v1 v2 && sameShape r1 r2
  | _, _ => false

/-- Pointwise shape equivalence of two pipelines. -/
def sameShapeList : List BSON → List BSON → Bool
  | [], [] => true
  | a :: as, b :: bs => sameShape a b && sameShapeList as bs
  | _, _ => false

/-- Well-formedness of a BSON telescope: every `rest` continuation is
itself a container cell, as in real BSON's flat element sequences. -/
def BSON.wfDoc : BSON → Bool
  | .objCons _ v r => v.wfDoc && r.isContainer && r.wfDoc
  | .arrCons _ v r => v.wfDoc && r.isContainer && r.wfDoc
  | _ => true

/-- The FLE-payload check cannot distinguish same-shaped values. -/
theorem throwCheck_congr (n : String) :
    ∀ a b : BSON, sameShape a b = true →
      throwIfEncounteringFLEPayload n a = throwIfEncounteringFLEPayload n b := by
  intro a b h
  cases a <;> cases b <;> simp [sameShape] at h <;> try rfl
  case str.str s1 s2 =>
      by_cases h1 : s1 = safeContentFieldpath
      · have h2 : s2 = safeContentFieldpath := h.mp h1
        simp [throwIfEncounteringFLEPayload, BSON.isObjType, h1, h2]
      · have h2 : ¬ s2 = safeContentFieldpath := fun hh => h1 (h.mpr hh)
        simp [throwIfEncounteringFLEPayload, BSON.isObjType, h1, h2]
  case binData.binData s1 b1 s2 b2 =>
      obtain ⟨rfl, hm⟩ := h
      by_cases he : s1 = binDataTypeEncrypt
      · simp only [binMarkerClass, if_pos he] at hm
        rw [decide_eq_decide] at hm
        simp at hm
        simp [throwIfEncounteringFLEPayload, BSON.isObjType, he, hm]
      · simp [throwIfEncounteringFLEPayload, BSON.isObjType, he]

/-- Same-shaped values agree on container-ness. -/
theorem isContainer_congr : ∀ a b : BSON, sameShape a b = true →
    a.isContainer = b.isContainer := by
  intro a b h
  cases a <;> cases b <;> simp [sameShape] at h <;> rfl

/-- `redactValueWith` agrees on a pair of values of equal container-ness
whose recursive redactions agree whenever they are containers. -/
theorem redactValueWith_pair_congr (v1 v2 : BSON) (x1 x2 : Except KeyError BSON)
    (hc : v1.isContainer = v2.isContainer)
    (hx : v1.isContainer = true → x1 = x2) :
    redactValueWith v1 x1 = redactValueWith v2 x2 := by
  unfold redactValueWith
  rw [← hc]
  by_cases h : v1.isContainer = true
  · simp [h, hx h]
  · simp [h]

/-- Object-to-object reinterpretation preserves shape equivalence. -/
theorem toObjTele_congr : ∀ a b : BSON, sameShape a b = true →
    sameShape a.toObjTele b.toObjTele = true := by
  intro a
  induction a with
  | arrCons n v r ihv ihr =>
      intro b h
      cases b <;> simp [sameShape] at h
      case arrCons n2 v2 r2 =>
        obtain ⟨⟨hn, hv⟩, hr⟩ := h
        subst hn
        simp [BSON.toObjTele, sameShape, hv, ihr r2 hr]
  | arrNil =>
      intro b h
      cases b <;> first | rfl | simp [sameShape] at h
  | objCons n v r ihv ihr =>
      intro b h
      cases b <;> first | exact h | simp [sameShape] at h
  | objNil => intro b h; cases b <;> first | exact h | simp [sameShape] at h
  | int m => intro b h; cases b <;> first | exact h | simp [sameShape] at h
  | bool x => intro b h; cases b <;> first | exact h | simp [sameShape] at h
  | null => intro b h; cases b <;> first | exact h | simp [sameShape] at h
  | str s => intro b h; cases b <;> first | exact h | simp [sameShape] at h
  | binData st bytes =>
      intro b h
      cases b <;> first | exact h | simp [sameShape] at h

/-- Redaction cannot distinguish same-shaped well-formed documents: it
either succeeds with the same output on both or rejects both. -/
theorem redactBody_congr : ∀ a b : BSON, a.wfDoc = true → a.isContainer = true →
    sameShape a b = true → redactBody a = redactBody b := by
  intro a
  induction a with
  | objCons n v r ihv ihr =>
      intro b hwf hcont h
      simp [BSON.wfDoc] at hwf
      obtain ⟨⟨hwfv, hrc⟩, hwfr⟩ := hwf
      cases b <;> simp [sameShape] at h
      case objCons n2 v2 r2 =>
        obtain ⟨⟨hn, hv⟩, hr⟩ := h
        subst hn
        simp only [redactBody]
        rw [throwCheck_congr n v v2 hv, ihr r2 hwfr hrc hr,
          redactValueWith_pair_congr v v2 _ _ (isContainer_congr v v2 hv)
            (fun hc => ihv v2 hwfv hc hv)]
  | arrCons n v r ihv ihr =>
      intro b hwf hcont h
      simp [BSON.wfDoc] at hwf
      obtain ⟨⟨hwfv, hrc⟩, hwfr⟩ := hwf
      cases b <;> simp [sameShape] at h
      case arrCons n2 v2 r2 =>
        obtain ⟨⟨hn, hv⟩, hr⟩ := h
        subst hn
        simp only [redactBody]
        rw [throwCheck_congr n v v2 hv, ihr r2 hwfr hrc hr,
          redactValueWith_pair_congr v v2 _ _ (isContainer_congr v v2 hv)
            (fun hc => ihv v2 hwfv hc hv)]
  | objNil =>
      intro b _ _ h
      cases b <;> simp [sameShape] at h
      rfl
  | arrNil =>
      intro b _ _ h
      cases b <;> simp [sameShape] at h
      rfl
  | int m => intro b _ hcont h; simp [BSON.isContainer] at hcont
  | bool x => intro b _ hcont h; simp [BSON.isContainer] at hcont
  | null => intro b _ hcont h; simp [BSON.isContainer] at hcont
  | str s => intro b _ hcont h; simp [BSON.isContainer] at hcont
  | binData st bytes => intro b _ hcont h; simp [BSON.isContainer] at hcont

/-- A container value stays a container after object reinterpretation. -/
theorem isContainer_toObjTele : ∀ v : BSON, v.isContainer = true →
    v.toObjTele.isContainer = true := by
  intro v h
  cases v <;> simp_all [BSON.isContainer, BSON.toObjTele]

/-- Object reinterpretation preserves telescope well-formedness. -/
theorem wfDoc_toObjTele : ∀ v : BSON, v.wfDoc = true → v.toObjTele.wfDoc = true := by
  intro v
  induction v with
  | arrCons n w r ihw ihr =>
      intro h
      simp [BSON.wfDoc] at h
      obtain ⟨⟨hw, hrc⟩, hr⟩ := h
      simp [BSON.toObjTele, BSON.wfDoc, hw, isContainer_toObjTele r hrc, ihr hr]
  | arrNil => intro h; simp [BSON.toObjTele, BSON.wfDoc]
  | objCons n w r ihw ihr => intro h; exact h
  | objNil => intro h; exact h
  | int m => intro h; exact h
  | bool x => intro h; exact h
  | null => intro h; exact h
  | str s => intro h; exact h
  | binData st bytes => intro h; exact h

/-- Key construction for one pipeline stage cannot distinguish
same-shaped well-formed stages. -/
theorem buildAggStage_congr : ∀ s1 s2 : BSON, s1.wfDoc = true →
    sameShape s1 s2 = true → buildAggStage s1 = buildAggStage s2 := by
  intro s1 s2 hwf h
  cases s1 <;> cases s2 <;> simp [sameShape] at h <;> try rfl
  case objCons.objCons n v r n2 v2 r2 =>
      obtain ⟨⟨hn, hv⟩, hr⟩ := h
      subst hn
      simp [BSON.wfDoc] at hwf
      obtain ⟨⟨hwfv, -⟩, -⟩ := hwf
      simp only [buildAggStage]
      rw [isContainer_congr v v2 hv]
      by_cases hc : v2.isContainer = true
      · simp only [if_pos hc]
        rw [redactBody_congr v.toObjTele v2.toObjTele
          (wfDoc_toObjTele v hwfv)
          (isContainer_toObjTele v (by rw [isContainer_congr v v2 hv]; exact hc))
          (toObjTele_congr v v2 hv)]
      · simp only [if_neg hc]

/-- Pipeline-key construction cannot distinguish pointwise same-shaped
well-formed pipelines. -/
theorem buildAggPipeline_congr : ∀ l1 l2 : List BSON,
    (l1.all fun s => s.wfDoc) = true → sameShapeList l1 l2 = true →
    buildAggPipeline l1 = buildAggPipeline l2 := by
  intro l1
  induction l1 with
  | nil =>
      intro l2 _ h
      cases l2 with
      | nil => rfl
      | cons b bs => simp [sameShapeList] at h
  | cons a as ih =>
      intro l2 hwf h
      cases l2 with
      | nil => simp [sameShapeList] at h
      | cons b bs =>
          simp [sameShapeList] at h
          obtain ⟨hab, hrest⟩ := h
          simp at hwf
          obtain ⟨hwa, hwas⟩ := hwf
          simp only [buildAggPipeline]
          rw [buildAggStage_congr a b hwa hab, ih bs (by simpa using hwas) hrest]

/-- Chooses between the recursive skeleton of a container value and the
placeholder leaf for a non-container value. -/
def skelWith (v : BSON) (recursed : BSON) : BSON :=
  if v.isContainer then recursed else .str "###"

/-- The field-name skeleton of a document: containers and element names
are kept, every literal leaf becomes the placeholder `"###"` — exactly
the image of a successful redaction. -/
def skel : BSON → BSON
  | .objCons n v r => .objCons n (skelWith v (skel v)) (skel r)
  | .arrCons n v r => .arrCons n (skelWith v (skel v)) (skel r)
  | v => v

/-- A successful redaction returns exactly the document's skeleton. -/
theorem redactBody_ok_skel : ∀ a b : BSON, redactBody a = .ok b → b = skel a := by
  intro a
  induction a with
  | objCons n v r ihv ihr =>
      intro b h
      simp only [redactBody] at h
      cases hc : throwIfEncounteringFLEPayload n v with
      | error e => rw [hc] at h; simp [Bind.bind, Except.bind] at h
      | ok u =>
          rw [hc] at h
          cases hv : redactValueWith v (redactBody v) with
          | error e => rw [hv] at h; simp [Bind.bind, Except.bind] at h
          | ok v' =>
              rw [hv] at h
              cases hr : redactBody r with
              | error e => rw [hr] at h; simp [Bind.bind, Except.bind] at h
              | ok r' =>
                  rw [hr] at h
                  simp [Bind.bind, Except.bind, pure, Except.pure] at h
                  subst h
                  have hr' : r' = skel r := ihr r' hr
                  have hv' : v' = skelWith v (skel v) := by
                    unfold redactValueWith at hv
                    by_cases hcv : v.isContainer = true
                    · rw [if_pos hcv] at hv
                      rw [skelWith, if_pos hcv]
                      exact ihv v' hv
                    · rw [if_neg hcv] at hv
                      simp [pure, Except.pure] at hv
                      rw [skelWith, if_neg hcv]
                      exact hv.symm
                  rw [hv', hr']
                  rfl
  | arrCons n v r ihv ihr =>
      intro b h
      simp only [redactBody] at h
      cases hc : throwIfEncounteringFLEPayload n v with
      | error e => rw [hc] at h; simp [Bind.bind, Except.bind] at h
      | ok u =>
          rw [hc] at h
          cases hv : redactValueWith v (redactBody v) with
          | error e => rw [hv] at h; simp [Bind.bind, Except.bind] at h
          | ok v' =>
              rw [hv] at h
              cases hr : redactBody r with
              | error e => rw [hr] at h; simp [Bind.bind, Except.bind] at h
              | ok r' =>
                  rw [hr] at h
                  simp [Bind.bind, Except.bind, pure, Except.pure] at h
                  subst h
                  have hr' : r' = skel r := ihr r' hr
                  have hv' : v' = skelWith v (skel v) := by
                    unfold redactValueWith at hv
                    by_cases hcv : v.isContainer = true
                    · rw [if_pos hcv] at hv
                      rw [skelWith, if_pos hcv]
                      exact ihv v' hv
                    · rw [if_neg hcv] at hv
                      simp [pure, Except.pure] at hv
                      rw [skelWith, if_neg hcv]
                      exact hv.symm
                  rw [hv', hr']
                  rfl
  | objNil => intro b h; simp [redactBody, pure, Except.pure] at h; simp [h.symm, skel]
  | arrNil => intro b h; simp [redactBody, pure, Except.pure] at h; simp [h.symm, skel]
  | int m => intro b h; simp [redactBody, pure, Except.pure] at h; simp [h.symm, skel]
  | bool x => intro b h; simp [redactBody, pure, Except.pure] at h; simp [h.symm, skel]
  | null => intro b h; simp [redactBody, pure, Except.pure] at h; simp [h.symm, skel]
  | str s => intro b h; simp [redactBody, pure, Except.pure] at h; simp [h.symm, skel]
  | binData st bytes =>
      intro b h
      simp [redactBody, pure, Except.pure] at h
      simp [h.symm, skel]

/-- The shape data a pipeline stage contributes to the key: the
first element's name and the skeleton of its argument document, or
nothing when key construction would fail on the stage. -/
def aggStageSkel : BSON → Option (String × BSON)
  | .objCons n v _ => if v.isContainer then some (n, skel v.toObjTele) else none
  | _ => none

/-- The shape of a pipeline: the per-stage shape data, in order. -/
def pipelineShape (l : List BSON) : List (Option (String × BSON)) :=
  l.map aggStageSkel

/-- The pipeline portion of the key as a function of the per-stage shape
data. -/
def encodeStages : List (String × BSON) → BSON
  | [] => .arrNil
  | (n, sk) :: rest => .arrCons "stage" (.objCons n sk .objNil) (encodeStages rest)

/-- A successfully built stage key is determined by — and determines —
the stage's shape data. -/
theorem buildAggStage_ok (s o : BSON) (h : buildAggStage s = .ok o) :
    ∃ n sk, aggStageSkel s = some (n, sk) ∧ o = .objCons n sk .objNil := by
  cases s <;> simp [buildAggStage] at h
  case objCons n v r =>
      by_cases hc : v.isContainer = true
      · rw [if_pos hc] at h
        cases hb : redactBody v.toObjTele with
        | error e => rw [hb] at h; simp [Bind.bind, Except.bind] at h
        | ok sk =>
            rw [hb] at h
            simp [Bind.bind, Except.bind, pure, Except.pure] at h
            exact ⟨n, sk, by simp [aggStageSkel, hc, redactBody_ok_skel _ _ hb], h.symm⟩
      · rw [if_neg hc] at h
        simp at h

/-- A successfully built pipeline key is the encoding of the pipeline's
shape data, all of whose stages built successfully. -/
theorem buildAggPipeline_ok : ∀ (l : List BSON) (p : BSON),
    buildAggPipeline l = .ok p →
    ∃ pairs : List (String × BSON),
      pipelineShape l = pairs.map some ∧ p = encodeStages pairs := by
  intro l
  induction l with
  | nil =>
      intro p h
      simp [buildAggPipeline, pure, Except.pure] at h
      exact ⟨[], by simp [pipelineShape], by simp [h.symm, encodeStages]⟩
  | cons s rest ih =>
      intro p h
      simp only [buildAggPipeline] at h
      cases hs : buildAggStage s with
      | error e => rw [hs] at h; simp [Bind.bind, Except.bind] at h
      | ok s0 =>
          rw [hs] at h
          cases hrest : buildAggPipeline rest with
          | error e => rw [hrest] at h; simp [Bind.bind, Except.bind] at h
          | ok p0 =>
              rw [hrest] at h
              simp [Bind.bind, Except.bind, pure, Except.pure] at h
              obtain ⟨n, sk, hskel, hso⟩ := buildAggStage_ok s s0 hs
              obtain ⟨pairs, hp1, hp2⟩ := ih p0 hrest
              refine ⟨(n, sk) :: pairs, ?_, ?_⟩
              · simp [pipelineShape, hskel]
                simpa [pipelineShape] using hp1
              · rw [← h, hso, hp2]
                rfl

/-- The stage encoding is injective in the shape data. -/
theorem encodeStages_inj : ∀ xs ys : List (String × BSON),
    encodeStages xs = encodeStages ys → xs = ys := by
  intro xs
  induction xs with
  | nil =>
      intro ys h
      cases ys with
      | nil => rfl
      | cons y ys => obtain ⟨n, sk⟩ := y; simp [encodeStages] at h
  | cons x xs ih =>
      intro ys h
      obtain ⟨n, sk⟩ := x
      cases ys with
      | nil => simp [encodeStages] at h
      | cons y ys =>
          obtain ⟨n2, sk2⟩ := y
          simp [encodeStages] at h
          obtain ⟨⟨hn, hsk⟩, hrest⟩ := h
          rw [hn, hsk, ih ys hrest]

/-- A produced aggregate key has exactly the built structure: the encoded
pipeline followed by namespace, optional read concern and optional
application name. -/
theorem agg_some_key (req : AggregateCommandRequest) (opCtx : OpCtx)
    (svc s1 : ServiceState) (key : BSON)
    (h : shouldCollectTelemetryAgg req opCtx svc = (.ok (some key), s1)) :
    ∃ stages, buildAggPipeline req.pipeline = .ok stages ∧
      key = .objCons "pipeline" stages (.objCons "namespace" (.str req.nss)
        (optField "readConcern" req.readConcern
          (optField "applicationName" (opCtx.appName.map .str) .objNil))) := by
  unfold shouldCollectTelemetryAgg at h
  split at h
  · simp at h
  · split at h
    · simp at h
    · rcases hsc : shouldCollect svc with ⟨g, sx⟩
      rw [hsc] at h
      cases g with
      | false => simp at h
      | true =>
          rw [if_neg (by simp)] at h
          cases hb : buildAggPipeline req.pipeline with
          | error e => rw [hb] at h; cases e <;> simp_all
          | ok stages =>
              rw [hb] at h
              simp at h
              exact ⟨stages, rfl, h.1.symm⟩

/-- Key construction for a serialized find command cannot distinguish
same-shaped well-formed bodies: object-valued entries go through the same
redaction, all other entries become the placeholder unconditionally. -/
theorem buildFindEntries_congr : ∀ b1 b2 : BSON, b1.wfDoc = true →
    sameShape b1 b2 = true → buildFindEntries b1 = buildFindEntries b2 := by
  intro b1
  induction b1 with
  | objCons n v r ihv ihr =>
      intro b2 hwf h
      simp [BSON.wfDoc] at hwf
      obtain ⟨⟨hwfv, hrc⟩, hwfr⟩ := hwf
      cases b2 <;> simp [sameShape] at h
      case objCons n2 v2 r2 =>
        obtain ⟨⟨hn, hv⟩, hr⟩ := h
        subst hn
        simp only [buildFindEntries]
        rw [isContainer_congr v v2 hv]
        by_cases hc : v2.isContainer = true
        · simp only [if_pos hc]
          rw [redactBody_congr v.toObjTele v2.toObjTele (wfDoc_toObjTele v hwfv)
              (isContainer_toObjTele v (by rw [isContainer_congr v v2 hv]; exact hc))
              (toObjTele_congr v v2 hv),
            ihr r2 hwfr hr]
        · simp only [if_neg hc]
          rw [ihr r2 hwfr hr]
  | objNil => intro b2 _ h; cases b2 <;> first | rfl | simp [sameShape] at h
  | arrNil => intro b2 _ h; cases b2 <;> first | rfl | simp [sameShape] at h
  | arrCons n v r ihv ihr =>
      intro b2 _ h
      cases b2 <;> first | rfl | simp [sameShape] at h
  | int m => intro b2 _ h; cases b2 <;> first | rfl | simp [sameShape] at h
  | bool x => intro b2 _ h; cases b2 <;> first | rfl | simp [sameShape] at h
  | null => intro b2 _ h; cases b2 <;> first | rfl | simp [sameShape] at h
  | str s => intro b2 _ h; cases b2 <;> first | rfl | simp [sameShape] at h
  | binData st bytes =>
      intro b2 _ h
      cases b2 <;> first | rfl | simp [sameShape] at h

/-- The shape data a serialized find command contributes to the key:
element names kept in order, object-valued entries replaced by their
skeletons, every other entry by the placeholder. -/
def findEntriesSkel : BSON → BSON
  | .objCons n v rest =>
      .objCons n (if v.isContainer then skel v.toObjTele else .str "###")
        (findEntriesSkel rest)
  | _ => .objNil

/-- A successfully built find entry list is exactly the body's shape
data. -/
theorem buildFindEntries_ok : ∀ b out : BSON, buildFindEntries b = .ok out →
    out = findEntriesSkel b := by
  intro b
  induction b with
  | objCons n v rest ihv ihr =>
      intro out h
      simp only [buildFindEntries] at h
      by_cases hc : v.isContainer = true
      · rw [if_pos hc] at h
        cases hb : redactBody v.toObjTele with
        | error er => rw [hb] at h; simp [Bind.bind, Except.bind] at h
        | ok r0 =>
            rw [hb] at h
            cases hrest : buildFindEntries rest with
            | error er => rw [hrest] at h; simp [Bind.bind, Except.bind] at h
            | ok e0 =>
                rw [hrest] at h
                simp [Bind.bind, Except.bind, pure, Except.pure] at h
                rw [← h, redactBody_ok_skel _ _ hb, ihr e0 hrest]
                simp [findEntriesSkel, hc]
      · rw [if_neg hc] at h
        cases hrest : buildFindEntries rest with
        | error er => rw [hrest] at h; simp [Bind.bind, Except.bind] at h
        | ok e0 =>
            rw [hrest] at h
            simp [Bind.bind, Except.bind, pure, Except.pure] at h
            rw [← h, ihr e0 hrest]
            simp [findEntriesSkel, hc]
  | objNil =>
      intro out h
      simp [buildFindEntries, pure, Except.pure] at h
      simp [h.symm, findEntriesSkel]
  | arrNil =>
      intro out h
      simp [buildFindEntries, pure, Except.pure] at h
      simp [h.symm, findEntriesSkel]
  | arrCons n v r ihv ihr =>
      intro out h
      simp [buildFindEntries, pure, Except.pure] at h
      simp [h.symm, findEntriesSkel]
  | int m =>
      intro out h
      simp [buildFindEntries, pure, Except.pure] at h
      simp [h.symm, findEntriesSkel]
  | bool x =>
      intro out h
      simp [buildFindEntries, pure, Except.pure] at h
      simp [h.symm, findEntriesSkel]
  | null =>
      intro out h
      simp [buildFindEntries, pure, Except.pure] at h
      simp [h.symm, findEntriesSkel]
  | str s =>
      intro out h
      simp [buildFindEntries, pure, Except.pure] at h
      simp [h.symm, findEntriesSkel]
  | binData st bytes =>
      intro out h
      simp [buildFindEntries, pure, Except.pure] at h
      simp [h.symm, findEntriesSkel]

/-- A produced find key has exactly the built structure: the redacted
entries inside the `find` subdocument followed by namespace, optional
read concern and optional application name. -/
theorem find_some_key (req : FindCommandRequest) (coll : String) (opCtx : OpCtx)
    (svc s1 : ServiceState) (key : BSON)
    (h : shouldCollectTelemetryFind req coll opCtx svc = (.ok (some key), s1)) :
    ∃ entries, buildFindEntries req.body = .ok entries ∧
      key = .objCons "find" entries (.objCons "namespace" (.str coll)
        (optField "readConcern" req.readConcern
          (optField "applicationName" (opCtx.appName.map .str) .objNil))) := by
  unfold shouldCollectTelemetryFind at h
  split at h
  · simp at h
  · split at h
    · simp at h
    · rcases hsc : shouldCollect svc with ⟨g, sx⟩
      rw [hsc] at h
      cases g with
      | false => simp at h
      | true =>
          rw [if_neg (by simp)] at h
          cases hb : buildFindEntries req.body with
          | error e => rw [hb] at h; cases e <;> simp_all
          | ok entries =>
              rw [hb] at h
              simp at h
              exact ⟨entries, rfl, h.1.symm⟩

/-- C2 amended: literal values influence the outcome only through their
redaction class, and shapes are what keys encode, for both overloads of
`shouldCollectTelemetry`.  First conjunct: two well-formed aggregate
requests with pointwise same-shaped pipelines (identical structure;
literals of the same redaction class — same BSON type, strings agreeing
on sentinel-hood, binary data with same subtype and marker class), equal
namespace, equal encryption flag and equal read concern produce
identical results in the same context: the same key, or both no key.
Second conjunct: two aggregate requests that both produce keys and whose
pipeline shapes (stage names or argument field-name skeletons) differ
produce different keys.  Third conjunct: the same literal-invariance for
the find overload — two well-formed find requests with same-shaped
serialized bodies, against the same collection, with equal encryption
flag and read concern, produce identical results.  Fourth conjunct: two
find requests that both produce keys and whose body shapes (entry names
or entry skeletons) differ produce different keys. -/
theorem C2_shape_determines_key :
    (∀ (r1 r2 : AggregateCommandRequest) (opCtx : OpCtx) (svc : ServiceState),
        (r1.pipeline.all fun s => s.wfDoc) = true →
        sameShapeList r1.pipeline r2.pipeline = true →
        r1.nss = r2.nss →
        r1.encryptionInformation = r2.encryptionInformation →
        r1.readConcern = r2.readConcern →
        shouldCollectTelemetryAgg r1 opCtx svc = shouldCollectTelemetryAgg r2 opCtx svc) ∧
    (∀ (r1 r2 : AggregateCommandRequest) (opCtx1 opCtx2 : OpCtx)
        (svc1 svc2 s1 s2 : ServiceState) (k1 k2 : BSON),
        shouldCollectTelemetryAgg r1 opCtx1 svc1 = (.ok (some k1), s1) →
        shouldCollectTelemetryAgg r2 opCtx2 svc2 = (.ok (some k2), s2) →
        pipelineShape r1.pipeline ≠ pipelineShape r2.pipeline →
        k1 ≠ k2) ∧
    (∀ (r1 r2 : FindCommandRequest) (coll : String) (opCtx : OpCtx) (svc : ServiceState),
        r1.body.wfDoc = true →
        sameShape r1.body r2.body = true →
        r1.encryptionInformation = r2.encryptionInformation →
        r1.readConcern = r2.readConcern →
        shouldCollectTelemetryFind r1 coll opCtx svc =
          shouldCollectTelemetryFind r2 coll opCtx svc) ∧
    (∀ (r1 r2 : FindCommandRequest) (coll1 coll2 : String) (opCtx1 opCtx2 : OpCtx)
        (svc1 svc2 s1 s2 : ServiceState) (k1 k2 : BSON),
        shouldCollectTelemetryFind r1 coll1 opCtx1 svc1 = (.ok (some k1), s1) →
        shouldCollectTelemetryFind r2 coll2 opCtx2 svc2 = (.ok (some k2), s2) →
        findEntriesSkel r1.body ≠ findEntriesSkel r2.body →
        k1 ≠ k2) := by
  refine ⟨?_, ?_, ?_, ?_⟩
  · intro r1 r2 opCtx svc hwf hshape hns henc hrc
    obtain ⟨p1, n1, e1, rc1⟩ := r1
    obtain ⟨p2, n2, e2, rc2⟩ := r2
    simp only at hns henc hrc hshape hwf
    subst hns henc hrc
    unfold shouldCollectTelemetryAgg
    rw [buildAggPipeline_congr p1 p2 hwf hshape]
  · intro r1 r2 opCtx1 opCtx2 svc1 svc2 s1 s2 k1 k2 h1 h2 hne hkeq
    apply hne
    obtain ⟨st1, hb1, hk1⟩ := agg_some_key r1 opCtx1 svc1 s1 k1 h1
    obtain ⟨st2, hb2, hk2⟩ := agg_some_key r2 opCtx2 svc2 s2 k2 h2
    rw [hk1, hk2] at hkeq
    have hst : st1 = st2 := by
      simp only [BSON.objCons.injEq] at hkeq
      exact hkeq.2.1
    obtain ⟨pairs1, hp1, he1⟩ := buildAggPipeline_ok _ _ hb1
    obtain ⟨pairs2, hp2, he2⟩ := buildAggPipeline_ok _ _ hb2
    have hpairs : pairs1 = pairs2 := by
      apply encodeStages_inj
      rw [← he1, ← he2, hst]
    rw [hp1, hp2, hpairs]
  · intro r1 r2 coll opCtx svc hwf hshape henc hrc
    obtain ⟨b1, e1, rc1⟩ := r1
    obtain ⟨b2, e2, rc2⟩ := r2
    simp only at henc hrc hshape hwf
    subst henc hrc
    unfold shouldCollectTelemetryFind
    rw [buildFindEntries_congr b1 b2 hwf hshape]
  · intro r1 r2 coll1 coll2 opCtx1 opCtx2 svc1 svc2 s1 s2 k1 k2 h1 h2 hne hkeq
    apply hne
    obtain ⟨en1, hb1, hk1⟩ := find_some_key r1 coll1 opCtx1 svc1 s1 k1 h1
    obtain ⟨en2, hb2, hk2⟩ := find_some_key r2 coll2 opCtx2 svc2 s2 k2 h2
    rw [hk1, hk2] at hkeq
    have hent : en1 = en2 := by
      simp only [BSON.objCons.injEq] at hkeq
      exact hkeq.2.1
    rw [← buildFindEntries_ok _ _ hb1, ← buildFindEntries_ok _ _ hb2, hent]

/-- An aggregate request with a single integer literal:
`[ \x7b $match : \x7b a : 5 \x7d \x7d ]`. -/
def intLitRequest : AggregateCommandRequest :=
  { pipeline := [.objCons "$match" (.objCons "a" (.int 5) .objNil) .objNil]
    nss := "test.coll", encryptionInformation := false, readConcern := none }

/-- The same request with the integer literal 7 instead of 5. -/
def intLit7Request : AggregateCommandRequest :=
  { pipeline := [.objCons "$match" (.objCons "a" (.int 7) .objNil) .objNil]
    nss := "test.coll", encryptionInformation := false, readConcern := none }

/-- The same request with the string literal `"x"` instead of 5. -/
def strLitRequest : AggregateCommandRequest :=
  { pipeline := [.objCons "$match" (.objCons "a" (.str "x") .objNil) .objNil]
    nss := "test.coll", encryptionInformation := false, readConcern := none }

/-- C2 counterexample: two requests of identical structure — same stage,
same field, same namespace — that differ only in the literal value of the
single filter field (`5` versus `"x"`) do not produce byte-identical
keys: the integer-literal request produces a key while the
string-literal request produces none (its literal trips the inverted FLE
string check during redaction). -/
theorem C2_literal_value_changes_outcome :
    (shouldCollectTelemetryAgg intLitRequest ⟨none⟩ svcGrant).1 =
      .ok (some (.objCons "pipeline"
        (.arrCons "stage"
          (.objCons "$match" (.objCons "a" (.str "###") .objNil) .objNil) .arrNil)
        (.objCons "namespace" (.str "test.coll") .objNil))) ∧
    (shouldCollectTelemetryAgg strLitRequest ⟨none⟩ svcGrant).1 = .ok none := by
  refine ⟨by decide, by decide⟩

/-- Witness for C2 at two concrete aggregate requests and two concrete
find requests, each pair differing only in an integer literal: identical
results under both overloads. -/
theorem C2_shape_determines_key_witness :
    (shouldCollectTelemetryAgg intLitRequest ⟨none⟩ svcGrant =
      shouldCollectTelemetryAgg intLit7Request ⟨none⟩ svcGrant) ∧
    (shouldCollectTelemetryFind
        ⟨.objCons "filter" (.objCons "a" (.int 5) .objNil) .objNil, false, none⟩
        "test.coll" ⟨none⟩ svcGrant =
      shouldCollectTelemetryFind
        ⟨.objCons "filter" (.objCons "a" (.int 7) .objNil) .objNil, false, none⟩
        "test.coll" ⟨none⟩ svcGrant) :=
  ⟨C2_shape_determines_key.1 intLitRequest intLit7Request ⟨none⟩ svcGrant
      (by decide) (by decide) rfl rfl rfl,
   C2_shape_determines_key.2.2.1
      ⟨.objCons "filter" (.objCons "a" (.int 5) .objNil) .objNil, false, none⟩
      ⟨.objCons "filter" (.objCons "a" (.int 7) .objNil) .objNil, false, none⟩
      "test.coll" ⟨none⟩ svcGrant (by decide) (by decide) rfl rfl⟩
